import Mathlib

/-!
Verification of the finetuning orchestration mechanism of the neuralHydrology
library, as specified by the finetuning tutorial and its design document.
The library's Python implementation is not part of the checked sources, so the
components (Configuration Resolver, Checkpoint Store, Module Trainability
Selector, Transfer-Learning Initializer, Run Orchestrator) are modelled from
the specification and the behaviour recorded in the tutorial notebook's logs.
-/

set_option autoImplicit false

/-- Typed configuration values: scalars, booleans and string lists, as they
appear in the run configuration logs of the tutorial notebook. Learning-rate
schedules and other non-integer scalars are carried as strings. -/
inductive Value where
  | str (s : String)
  | nat (n : Nat)
  | bool (b : Bool)
  | strList (xs : List String)
  deriving DecidableEq

/-- Generic association-list lookup, first binding wins. -/
def alookup {κ α : Type} [DecidableEq κ] : List (κ × α) → κ → Option α
  | [], _ => none
  | p :: r, k => if p.1 = k then some p.2 else alookup r k

/-- Generic association-list update: replace the first binding of the key, or
append a fresh binding when the key is absent. -/
def aset {κ α : Type} [DecidableEq κ] : List (κ × α) → κ → α → List (κ × α)
  | [], k, v => [(k, v)]
  | p :: r, k, v => if p.1 = k then (k, v) :: r else p :: aset r k v

@[simp] theorem alookup_nil {κ α : Type} [DecidableEq κ] (k : κ) :
    alookup ([] : List (κ × α)) k = none := rfl

@[simp] theorem alookup_cons {κ α : Type} [DecidableEq κ] (p : κ × α)
    (r : List (κ × α)) (k : κ) :
    alookup (p :: r) k = if p.1 = k then some p.2 else alookup r k := rfl

@[simp] theorem aset_nil {κ α : Type} [DecidableEq κ] (k : κ) (v : α) :
    aset ([] : List (κ × α)) k v = [(k, v)] := rfl

@[simp] theorem aset_cons {κ α : Type} [DecidableEq κ] (p : κ × α)
    (r : List (κ × α)) (k : κ) (v : α) :
    aset (p :: r) k v = if p.1 = k then (k, v) :: r else p :: aset r k v := rfl

theorem alookup_aset_self {κ α : Type} [DecidableEq κ] (r : List (κ × α))
    (k : κ) (v : α) : alookup (aset r k v) k = some v := by
  induction r with
  | nil => simp
  | cons p r ih => by_cases h : p.1 = k <;> simp [h, ih]

theorem alookup_aset_ne {κ α : Type} [DecidableEq κ] (r : List (κ × α))
    {k k' : κ} (v : α) (h : k' ≠ k) :
    alookup (aset r k v) k' = alookup r k' := by
  induction r with
  | nil => simp [Ne.symm h]
  | cons p r ih =>
    by_cases hp : p.1 = k
    · have hp' : p.1 ≠ k' := by
        rw [hp]; exact Ne.symm h
      simp [hp, hp', Ne.symm h]
    · by_cases hq : p.1 = k' <;> simp [hp, hq, ih, h]

theorem aset_of_alookup_eq {κ α : Type} [DecidableEq κ] {r : List (κ × α)}
    {k : κ} {v : α} (h : alookup r k = some v) : aset r k v = r := by
  induction r with
  | nil => simp at h
  | cons p r ih =>
    by_cases hp : p.1 = k
    · rw [alookup_cons, if_pos hp] at h
      have hv := Option.some.inj h
      rw [aset_cons, if_pos hp, ← hp, ← hv]
    · rw [alookup_cons, if_neg hp] at h
      rw [aset_cons, if_neg hp, ih h]

theorem alookup_mem {κ α : Type} [DecidableEq κ] {r : List (κ × α)} {k : κ}
    {v : α} (h : alookup r k = some v) : (k, v) ∈ r := by
  induction r with
  | nil => simp at h
  | cons p r ih =>
    by_cases hp : p.1 = k
    · rw [alookup_cons, if_pos hp] at h
      have hv := Option.some.inj h
      have hkv : (k, v) = p := by rw [← hp, ← hv]
      rw [hkv]
      exact List.mem_cons_self _ _
    · rw [alookup_cons, if_neg hp] at h
      exact List.mem_cons_of_mem _ (ih h)

theorem alookup_eq_none {κ α : Type} [DecidableEq κ] (r : List (κ × α))
    (k : κ) : alookup r k = none ↔ k ∉ r.map Prod.fst := by
  induction r with
  | nil => simp
  | cons p r ih =>
    by_cases hp : p.1 = k
    · simp [hp]
    · rw [alookup_cons, if_neg hp, ih]
      simp only [List.map_cons, List.mem_cons, not_or]
      constructor
      · intro hn
        exact ⟨fun e => hp e.symm, hn⟩
      · intro hn
        exact hn.2

/-- A Configuration Record: an ordered mapping from parameter name to typed
value. -/
abbrev ConfigRecord := List (String × Value)

/-- Keys a finetune override is forbidden to change because they determine the
model structure (architecture identifier, hidden-state width and the other
structural hyperparameters); a static design constant. -/
def immutableFields : List String :=
  ["model", "head", "hidden_size", "initial_forget_bias", "output_activation",
   "seq_length", "dynamic_inputs", "static_attributes", "forcings",
   "target_variables"]

/-- The two override keys that must be present for finetuning: the base-run
location and the finetune-module list. -/
def mandatoryOverrideKeys : List String := ["base_run_dir", "finetune_modules"]

/-- Fields written by the resolver itself: the finetuning flag and the
back-reference to the base run's location. -/
def finetuneFlagFields : List String := ["is_finetuning", "base_run_dir"]

/-- Immutable-field conflict test: the override sets the key to a value
different from the base record's value. -/
def immutableConflict (base ov : ConfigRecord) (k : String) : Bool :=
  match alookup ov k, alookup base k with
  | some v, some b => if v = b then false else true
  | some _, none => true
  | none, _ => false

/-- Immutable-field keys on which the override conflicts with the base. -/
def conflictKeys (base ov : ConfigRecord) : List String :=
  immutableFields.filter (immutableConflict base ov)

/-- Modelled from the spec: the merge step of the Configuration Resolver
(the Python implementation is not among the checked sources). Start from a
copy of the base record; for every key present in the override, replace the
base value, except keys in the immutable-field set. -/
def applyOverride : ConfigRecord → ConfigRecord → ConfigRecord
  | base, [] => base
  | base, p :: rest =>
    applyOverride (if p.1 ∈ immutableFields then base else aset base p.1 p.2) rest

/-- Error taxonomy of the finetuning core. -/
inductive Err where
  | MissingRequiredFieldError (key : String)
  | ConfigConflictError (keys : List String)
  | UnknownModuleError (name : String)
  | NoCheckpointFoundError
  | ParameterShapeMismatchError (key : String)
  deriving DecidableEq

/-- Modelled from the spec: the Configuration Resolver (the Python
implementation is not among the checked sources). The two mandatory override
keys must be present or resolution fails with `MissingRequiredFieldError`;
an override that sets an immutable-field key to a different value fails with
`ConfigConflictError` naming the offending keys; otherwise the override is
merged over the base record and the resolver records the finetuning flag and
the back-reference to the base run's location. -/
def resolve (base ov : ConfigRecord) : Except Err ConfigRecord :=
  match alookup ov "base_run_dir" with
  | none => .error (.MissingRequiredFieldError "base_run_dir")
  | some bdir =>
    match alookup ov "finetune_modules" with
    | none => .error (.MissingRequiredFieldError "finetune_modules")
    | some _ =>
      match conflictKeys base ov with
      | [] =>
        .ok (aset (aset (applyOverride base ov) "is_finetuning" (Value.bool true))
              "base_run_dir" bdir)
      | ks => .error (.ConfigConflictError ks)

theorem alookup_applyOverride_of_none (base : ConfigRecord) {ov : ConfigRecord}
    {k : String} (h : alookup ov k = none) :
    alookup (applyOverride base ov) k = alookup base k := by
  induction ov generalizing base with
  | nil => rfl
  | cons p rest ih =>
    by_cases hp : p.1 = k
    · simp [hp] at h
    · rw [alookup_cons, if_neg hp] at h
      rw [applyOverride, ih _ h]
      by_cases hc : p.1 ∈ immutableFields
      · rw [if_pos hc]
      · rw [if_neg hc, alookup_aset_ne _ _ (fun e => hp e.symm)]

theorem alookup_applyOverride_of_some (base : ConfigRecord) {ov : ConfigRecord}
    {k : String} {v : Value} (hnd : (ov.map Prod.fst).Nodup)
    (hk : k ∉ immutableFields) (h : alookup ov k = some v) :
    alookup (applyOverride base ov) k = some v := by
  induction ov generalizing base with
  | nil => simp at h
  | cons p rest ih =>
    simp only [List.map_cons, List.nodup_cons] at hnd
    by_cases hp : p.1 = k
    · rw [alookup_cons, if_pos hp] at h
      have hv := Option.some.inj h
      have hrest : alookup rest k = none := by
        rw [alookup_eq_none]
        rw [hp] at hnd
        exact hnd.1
      have hc : p.1 ∉ immutableFields := by
        rw [hp]
        exact hk
      rw [applyOverride, if_neg hc]
      rw [alookup_applyOverride_of_none _ hrest, hp, hv, alookup_aset_self]
    · rw [alookup_cons, if_neg hp] at h
      rw [applyOverride]
      exact ih _ hnd.2 h

theorem conflictKeys_eq_nil_of_mutable (base : ConfigRecord) {ov : ConfigRecord}
    (hm : ∀ p ∈ ov, p.1 ∉ immutableFields) : conflictKeys base ov = [] := by
  rw [conflictKeys, List.filter_eq_nil_iff]
  intro k hk
  intro hc
  cases hov : alookup ov k with
  | none => rw [immutableConflict, hov] at hc; simp at hc
  | some v => exact hm _ (alookup_mem hov) hk

theorem resolve_ok_eq {base ov : ConfigRecord} {bdir fmods : Value}
    (h1 : alookup ov "base_run_dir" = some bdir)
    (h2 : alookup ov "finetune_modules" = some fmods)
    (hck : conflictKeys base ov = []) :
    resolve base ov =
      .ok (aset (aset (applyOverride base ov) "is_finetuning" (Value.bool true))
            "base_run_dir" bdir) := by
  unfold resolve
  rw [h1, h2, hck]

theorem resolve_conflict_eq {base ov : ConfigRecord} {bdir fmods : Value}
    (h1 : alookup ov "base_run_dir" = some bdir)
    (h2 : alookup ov "finetune_modules" = some fmods)
    {k : String} {ks : List String} (hck : conflictKeys base ov = k :: ks) :
    resolve base ov = .error (.ConfigConflictError (k :: ks)) := by
  unfold resolve
  rw [h1, h2, hck]

/-- C1 counterexample: the empty override does not resolve to the base record;
it fails, because the mandatory override key for the base-run location is
absent. -/
theorem resolve_empty_override_fails :
    resolve [("train_basin_file", Value.str "all_basins.txt")] [] =
      .error (Err.MissingRequiredFieldError "base_run_dir") := rfl

/-- C1 (amended): for every base record and every override with distinct keys
that touches only mutable fields and carries the two mandatory keys,
resolution succeeds; every key present in the override (other than the
finetuning flag itself) takes the override's value, and every key absent from
the override outside the finetuning-flag fields keeps the base record's
value. -/
theorem resolve_mutable_override (base ov : ConfigRecord)
    (hnd : (ov.map Prod.fst).Nodup)
    (hm : ∀ p ∈ ov, p.1 ∉ immutableFields)
    (h1 : (alookup ov "base_run_dir").isSome = true)
    (h2 : (alookup ov "finetune_modules").isSome = true) :
    ∃ r, resolve base ov = .ok r ∧
      (∀ k v, alookup ov k = some v → k ≠ "is_finetuning" → alookup r k = some v) ∧
      (∀ k, alookup ov k = none → k ∉ finetuneFlagFields →
        alookup r k = alookup base k) := by
  obtain ⟨bdir, hv1⟩ := Option.isSome_iff_exists.mp h1
  obtain ⟨fmods, hv2⟩ := Option.isSome_iff_exists.mp h2
  have hck := conflictKeys_eq_nil_of_mutable base hm
  refine ⟨_, resolve_ok_eq hv1 hv2 hck, ?_, ?_⟩
  · intro k v hkv hkne
    by_cases hkb : k = "base_run_dir"
    · subst hkb
      rw [alookup_aset_self]
      rw [hkv] at hv1
      exact hv1.symm
    · rw [alookup_aset_ne _ _ hkb, alookup_aset_ne _ _ hkne]
      exact alookup_applyOverride_of_some base hnd
        (fun hin => hm _ (alookup_mem hkv) hin) hkv
  · intro k hknone hkflag
    have hkb : k ≠ "base_run_dir" := by
      intro e
      exact hkflag (by rw [e]; right; exact List.mem_cons_self _ _)
    have hkf : k ≠ "is_finetuning" := by
      intro e
      exact hkflag (by rw [e]; exact List.mem_cons_self _ _)
    rw [alookup_aset_ne _ _ hkb, alookup_aset_ne _ _ hkf,
        alookup_applyOverride_of_none _ hknone]

/-- Base record of the spec's example scenario for C1. -/
def exampleBase : ConfigRecord :=
  [("train_basin_file", Value.str "all_basins.txt"),
   ("hidden_size", Value.nat 128),
   ("epochs", Value.nat 3)]

/-- Override record of the spec's example scenario for C1. -/
def exampleOverride : ConfigRecord :=
  [("train_basin_file", Value.str "one_basin.txt"),
   ("finetune_modules", Value.strList ["head"]),
   ("base_run_dir", Value.str "runs/base_run")]

/-- C1 witness: the amended claim at the spec's example scenario. -/
theorem resolve_mutable_override_witness :
    ∃ r, resolve exampleBase exampleOverride = .ok r ∧
      (∀ k v, alookup exampleOverride k = some v → k ≠ "is_finetuning" →
        alookup r k = some v) ∧
      (∀ k, alookup exampleOverride k = none → k ∉ finetuneFlagFields →
        alookup r k = alookup exampleBase k) :=
  resolve_mutable_override exampleBase exampleOverride (by decide) (by decide)
    (by decide) (by decide)

theorem immutableConflict_iff (base ov : ConfigRecord) (k : String) :
    immutableConflict base ov k = true ↔
      ∃ v, alookup ov k = some v ∧ alookup base k ≠ some v := by
  cases hov : alookup ov k with
  | none => simp [immutableConflict, hov]
  | some v =>
    cases hb : alookup base k with
    | none => simp [immutableConflict, hov, hb]
    | some b =>
      by_cases hvb : v = b
      · subst hvb
        simp [immutableConflict, hov, hb]
      · simp [immutableConflict, hov, hb, hvb]
        exact fun e => hvb e.symm

theorem conflictKeys_mem (base ov : ConfigRecord) (k : String) :
    k ∈ conflictKeys base ov ↔
      k ∈ immutableFields ∧ ∃ v, alookup ov k = some v ∧ alookup base k ≠ some v := by
  rw [conflictKeys, List.mem_filter, immutableConflict_iff]

/-- C2: given the two mandatory override keys, an override that sets any
immutable-field key to a value different from the base record's value makes
resolution fail with `ConfigConflictError` whose key list contains every
offending key; an override whose immutable-field entries all agree with the
base record does not fail. -/
theorem resolve_immutable_conflict (base ov : ConfigRecord)
    (h1 : (alookup ov "base_run_dir").isSome = true)
    (h2 : (alookup ov "finetune_modules").isSome = true) :
    ((∃ k ∈ immutableFields, ∃ v, alookup ov k = some v ∧ alookup base k ≠ some v) →
      resolve base ov = .error (.ConfigConflictError (conflictKeys base ov)) ∧
      ∀ k ∈ immutableFields,
        (∃ v, alookup ov k = some v ∧ alookup base k ≠ some v) →
        k ∈ conflictKeys base ov) ∧
    ((∀ k ∈ immutableFields, ∀ v, alookup ov k = some v → alookup base k = some v) →
      ∃ r, resolve base ov = .ok r) := by
  obtain ⟨bdir, hv1⟩ := Option.isSome_iff_exists.mp h1
  obtain ⟨fmods, hv2⟩ := Option.isSome_iff_exists.mp h2
  constructor
  · rintro ⟨k, hk, v, hov, hbase⟩
    have hkmem : k ∈ conflictKeys base ov :=
      (conflictKeys_mem base ov k).mpr ⟨hk, v, hov, hbase⟩
    constructor
    · cases hcl : conflictKeys base ov with
      | nil => rw [hcl] at hkmem; simp at hkmem
      | cons a as => exact resolve_conflict_eq hv1 hv2 hcl
    · intro k' hk' hex
      exact (conflictKeys_mem base ov k').mpr ⟨hk', hex⟩
  · intro hall
    have hck : conflictKeys base ov = [] := by
      rw [conflictKeys, List.filter_eq_nil_iff]
      intro k hk hc
      obtain ⟨v, hov, hbase⟩ := (immutableConflict_iff base ov k).mp hc
      exact hbase (hall k hk v hov)
    exact ⟨_, resolve_ok_eq hv1 hv2 hck⟩

/-- Override of the spec's conflicting example for C2: `hidden_size: 64`
against a base run with `hidden_size: 128`. -/
def conflictOverride : ConfigRecord :=
  [("hidden_size", Value.nat 64),
   ("finetune_modules", Value.strList ["head"]),
   ("base_run_dir", Value.str "runs/base_run")]

/-- C2 witness: the conflicting override fails with a `ConfigConflictError`
citing `hidden_size`; the offending key is named in the error's key list. -/
theorem resolve_immutable_conflict_witness :
    resolve exampleBase conflictOverride =
      .error (Err.ConfigConflictError (conflictKeys exampleBase conflictOverride)) ∧
    "hidden_size" ∈ conflictKeys exampleBase conflictOverride := by
  have h := (resolve_immutable_conflict exampleBase conflictOverride
    (by decide) (by decide)).1
    ⟨"hidden_size", by decide, Value.nat 64, by decide, by decide⟩
  exact ⟨h.1, h.2 "hidden_size" (by decide) ⟨Value.nat 64, by decide, by decide⟩⟩

/-- C3: an override missing either mandatory key (the base-run location or the
finetune-module list) makes resolution fail with `MissingRequiredFieldError`
citing a mandatory key that is indeed missing from the override. -/
theorem resolve_missing_mandatory (base ov : ConfigRecord)
    (h : alookup ov "base_run_dir" = none ∨ alookup ov "finetune_modules" = none) :
    ∃ k ∈ mandatoryOverrideKeys,
      resolve base ov = .error (.MissingRequiredFieldError k) ∧
      alookup ov k = none := by
  cases hb : alookup ov "base_run_dir" with
  | none =>
    refine ⟨"base_run_dir", by decide, ?_, hb⟩
    unfold resolve
    rw [hb]
  | some bdir =>
    have hf : alookup ov "finetune_modules" = none := by
      rcases h with h | h
      · rw [h] at hb
        exact Option.noConfusion hb
      · exact h
    refine ⟨"finetune_modules", by decide, ?_, hf⟩
    unfold resolve
    rw [hb, hf]

/-- C3 witness: the spec's example scenario, an override omitting
`base_run_dir`, fails with `MissingRequiredFieldError` citing it. -/
theorem resolve_missing_mandatory_witness :
    ∃ k ∈ mandatoryOverrideKeys,
      resolve exampleBase [("finetune_modules", Value.strList ["head"])] =
        .error (Err.MissingRequiredFieldError k) ∧
      alookup [("finetune_modules", Value.strList ["head"])] k = none :=
  resolve_missing_mandatory exampleBase _ (Or.inl (by decide))

/-- Serialized parameter tensor, abstracted as its list of integer entries;
the shape is its length. -/
abbrev Tensor := List Int

/-- Parameter snapshot: tensors keyed by structural path. -/
abbrev ParamSnapshot := List (String × Tensor)

/-- An immutable checkpoint: a parameter snapshot plus the epoch index at
which the external training loop produced it. -/
structure Checkpoint where
  epoch : Nat
  params : ParamSnapshot
  deriving DecidableEq

/-- Architecture declaration: the structural parameter keys with their shapes,
and the fixed enumeration of sub-component names with the structural-key
leading segment each one owns. -/
structure Architecture where
  paramShapes : List (String × Nat)
  modulePaths : List (String × String)
  deriving DecidableEq

/-- Leading-segment test on key characters. -/
def listLead {α : Type} [DecidableEq α] : List α → List α → Bool
  | [], _ => true
  | _ :: _, [] => false
  | a :: as, b :: bs => if a = b then listLead as bs else false

/-- Leading-segment test on structural keys. -/
def strLead (p s : String) : Bool := listLead p.toList s.toList

/-- Modelled from the spec: fresh model construction from the structural
fields (the Python model classes are not among the checked sources); each
structural parameter starts from its initialization value, zero here. -/
def freshParams (arch : Architecture) : ParamSnapshot :=
  arch.paramShapes.map (fun ks => (ks.1, List.replicate ks.2 0))

/-- Modelled from the spec: the checkpoint-loading step of the
Transfer-Learning Initializer. Snapshot values are matched against the fresh
model's structural keys one-to-one; a missing key or a shape difference is
fatal with `ParameterShapeMismatchError`. -/
def loadParams : ParamSnapshot → ParamSnapshot → Except Err ParamSnapshot
  | [], _ => .ok []
  | p :: rest, snap =>
    match alookup snap p.1 with
    | none => .error (.ParameterShapeMismatchError p.1)
    | some t =>
      if t.length = p.2.length then
        match loadParams rest snap with
        | .ok r => .ok ((p.1, t) :: r)
        | .error e => .error e
      else .error (.ParameterShapeMismatchError p.1)

/-- Declared sub-component names of an architecture. -/
def moduleNames (arch : Architecture) : List String :=
  arch.modulePaths.map Prod.fst

/-- A named sub-component covers a parameter when the parameter's structural
key starts with the sub-component's key segment. -/
def modCovers (arch : Architecture) (k m : String) : Bool :=
  match alookup arch.modulePaths m with
  | some p => strLead p k
  | none => false

/-- A parameter is trainable when some listed finetune module covers it. -/
def isTrainable (arch : Architecture) (mods : List String) (k : String) : Bool :=
  mods.any (modCovers arch k)

/-- Modelled from the spec: the Module Trainability Selector (the Python
implementation is not among the checked sources). Every listed name must be a
declared sub-component, otherwise `UnknownModuleError` names the offending
entry; on success the mask marks exactly the covered parameters trainable. -/
def selectTrainable (arch : Architecture) (paramKeys : List String)
    (mods : List String) : Except Err (List (String × Bool)) :=
  match mods.find? (fun m => decide (m ∉ moduleNames arch)) with
  | some m => .error (.UnknownModuleError m)
  | none => .ok (paramKeys.map (fun k => (k, isTrainable arch mods k)))

/-- Modelled from the spec: the Checkpoint Store's latest-checkpoint
resolution (the Python implementation is not among the checked sources).
Returns the checkpoint with the highest epoch index, or
`NoCheckpointFoundError` when the run owns no checkpoint. -/
def latest : List Checkpoint → Except Err Checkpoint
  | [] => .error .NoCheckpointFoundError
  | c :: cs =>
    match latest cs with
    | .error _ => .ok c
    | .ok b => .ok (if b.epoch ≤ c.epoch then c else b)

/-- Modelled from the spec: the Transfer-Learning Initializer (the Python
implementation is not among the checked sources). Builds the fresh model from
the structural fields, resolves the base run's latest checkpoint, loads its
values and computes the trainability mask. -/
def initModel (arch : Architecture) (baseCkpts : List Checkpoint)
    (mods : List String) :
    Except Err (ParamSnapshot × List (String × Bool)) :=
  match latest baseCkpts with
  | .error e => .error e
  | .ok ck =>
    match loadParams (freshParams arch) ck.params with
    | .error e => .error e
    | .ok m =>
      match selectTrainable arch (m.map Prod.fst) mods with
      | .error e => .error e
      | .ok mask => .ok (m, mask)

theorem loadParams_ok {fresh snap m : ParamSnapshot}
    (h : loadParams fresh snap = .ok m) :
    m.map Prod.fst = fresh.map Prod.fst ∧
    ∀ p ∈ m, alookup snap p.1 = some p.2 := by
  induction fresh generalizing m with
  | nil =>
    rw [loadParams] at h
    have hm := Except.ok.inj h
    subst hm
    exact ⟨rfl, by simp⟩
  | cons q rest ih =>
    rw [loadParams] at h
    cases hq : alookup snap q.1 with
    | none => rw [hq] at h; exact Except.noConfusion h
    | some t =>
      rw [hq] at h
      dsimp only at h
      by_cases hl : t.length = q.2.length
      · rw [if_pos hl] at h
        cases hrest : loadParams rest snap with
        | error e => rw [hrest] at h; exact Except.noConfusion h
        | ok r =>
          rw [hrest] at h
          have hm := Except.ok.inj h
          subst hm
          obtain ⟨hkeys, hvals⟩ := ih hrest
          refine ⟨by simp [hkeys], ?_⟩
          intro p hp
          rcases List.mem_cons.mp hp with hp | hp
          · rw [hp]
            exact hq
          · exact hvals p hp
      · rw [if_neg hl] at h
        exact Except.noConfusion h

/-- Modelled from the spec: one epoch of parameter updates by the external
training loop under a trainability mask; the optimizer step is an arbitrary
function, withheld from parameters the mask freezes. -/
def trainEpoch (update : String → Tensor → Tensor)
    (mask : List (String × Bool)) (m : ParamSnapshot) : ParamSnapshot :=
  m.map (fun p =>
    match alookup mask p.1 with
    | some true => (p.1, update p.1 p.2)
    | _ => p)

/-- Training driven for a number of epochs. -/
def trainEpochs (update : String → Tensor → Tensor)
    (mask : List (String × Bool)) : Nat → ParamSnapshot → ParamSnapshot
  | 0, m => m
  | n + 1, m => trainEpochs update mask n (trainEpoch update mask m)

theorem trainEpoch_frozen {mask : List (String × Bool)}
    (hmask : ∀ p ∈ mask, p.2 = false)
    (update : String → Tensor → Tensor) (m : ParamSnapshot) :
    trainEpoch update mask m = m := by
  unfold trainEpoch
  have hid : ∀ p ∈ m,
      (match alookup mask p.1 with
        | some true => (p.1, update p.1 p.2)
        | _ => p) = p := by
    intro p _
    cases hl : alookup mask p.1 with
    | none => rfl
    | some b =>
      cases b with
      | false => rfl
      | true => exact absurd (hmask _ (alookup_mem hl)) (by simp)
  exact (List.map_congr_left hid).trans (List.map_id m)

/-- C4: whenever Transfer-Learning Initialization succeeds, the model's
parameter keys are exactly the structural keys of the fresh construction and
every parameter value equals the corresponding value in the base run's latest
checkpoint; the trainability mask is computed separately and does not alter
the numeric state. -/
theorem transfer_init_bit_identical (arch : Architecture)
    (baseCkpts : List Checkpoint) (mods : List String)
    (m : ParamSnapshot) (mask : List (String × Bool))
    (h : initModel arch baseCkpts mods = .ok (m, mask)) :
    ∃ ck, latest baseCkpts = .ok ck ∧
      m.map Prod.fst = (freshParams arch).map Prod.fst ∧
      ∀ p ∈ m, alookup ck.params p.1 = some p.2 := by
  unfold initModel at h
  cases hck : latest baseCkpts with
  | error e => rw [hck] at h; exact Except.noConfusion h
  | ok ck =>
    rw [hck] at h
    dsimp only at h
    cases hld : loadParams (freshParams arch) ck.params with
    | error e => rw [hld] at h; exact Except.noConfusion h
    | ok m' =>
      rw [hld] at h
      dsimp only at h
      cases hsel : selectTrainable arch (m'.map Prod.fst) mods with
      | error e => rw [hsel] at h; exact Except.noConfusion h
      | ok mask' =>
        rw [hsel] at h
        dsimp only at h
        obtain ⟨hm, hmask⟩ := Prod.mk.inj (Except.ok.inj h)
        subst hm
        obtain ⟨hkeys, hvals⟩ := loadParams_ok hld
        exact ⟨ck, rfl, hkeys, hvals⟩

/-- Small concrete architecture used by the witnesses: a head and a recurrent
core owning two structural parameters. -/
def demoArch : Architecture :=
  { paramShapes := [("head.weight", 2), ("lstm.weight", 3)],
    modulePaths := [("head", "head."), ("lstm", "lstm.")] }

/-- Concrete checkpoint of the demo base run. -/
def demoCkpt : Checkpoint :=
  { epoch := 3,
    params := [("head.weight", [1, 2]), ("lstm.weight", [4, 5, 6])] }

/-- C4 witness: initialization from the demo checkpoint succeeds and the
loaded parameters equal the checkpoint values. -/
theorem transfer_init_bit_identical_witness :
    ∃ ck, latest [demoCkpt] = .ok ck ∧
      ([("head.weight", ([1, 2] : Tensor)),
        ("lstm.weight", ([4, 5, 6] : Tensor))].map Prod.fst) =
        (freshParams demoArch).map Prod.fst ∧
      ∀ p ∈ [("head.weight", ([1, 2] : Tensor)),
             ("lstm.weight", ([4, 5, 6] : Tensor))],
        alookup ck.params p.1 = some p.2 :=
  transfer_init_bit_identical demoArch [demoCkpt] ["head"]
    [("head.weight", [1, 2]), ("lstm.weight", [4, 5, 6])]
    [("head.weight", true), ("lstm.weight", false)] rfl

/-- C5: when every listed finetune module is a declared sub-component, the
selector returns a mask total over the given parameter set in which a
parameter is trainable exactly when a listed module covers it; when some
listed name is not a declared sub-component, the selector fails with
`UnknownModuleError` naming such an offending entry. -/
theorem selector_total_and_validated (arch : Architecture)
    (paramKeys mods : List String) :
    ((∀ m ∈ mods, m ∈ moduleNames arch) →
      ∃ mask, selectTrainable arch paramKeys mods = .ok mask ∧
        mask.map Prod.fst = paramKeys ∧
        ∀ p ∈ mask, (p.2 = true ↔ ∃ m ∈ mods, modCovers arch p.1 m = true)) ∧
    ((∃ m ∈ mods, m ∉ moduleNames arch) →
      ∃ m, m ∈ mods ∧ m ∉ moduleNames arch ∧
        selectTrainable arch paramKeys mods = .error (.UnknownModuleError m)) := by
  constructor
  · intro hall
    have hfind : mods.find? (fun m => decide (m ∉ moduleNames arch)) = none := by
      rw [List.find?_eq_none]
      intro x hx
      simpa using hall x hx
    refine ⟨paramKeys.map (fun k => (k, isTrainable arch mods k)), ?_, ?_, ?_⟩
    · unfold selectTrainable
      rw [hfind]
    · rw [List.map_map]
      exact (List.map_congr_left (fun a _ => rfl)).trans (List.map_id _)
    · intro p hp
      obtain ⟨k, _, hpk⟩ := List.mem_map.mp hp
      rw [← hpk]
      simp [isTrainable, List.any_eq_true]
  · rintro ⟨m, hm, hmn⟩
    have hs : (mods.find? (fun m => decide (m ∉ moduleNames arch))).isSome := by
      rw [List.find?_isSome]
      exact ⟨m, hm, by simpa using hmn⟩
    obtain ⟨y, hy⟩ := Option.isSome_iff_exists.mp hs
    refine ⟨y, List.mem_of_find?_eq_some hy, by simpa using List.find?_some hy, ?_⟩
    unfold selectTrainable
    rw [hy]

/-- C5 witness: the selector at the demo architecture with the valid module
list consisting of the head. -/
theorem selector_total_and_validated_witness :
    ∃ mask, selectTrainable demoArch ["head.weight", "lstm.weight"] ["head"] =
        .ok mask ∧
      mask.map Prod.fst = ["head.weight", "lstm.weight"] ∧
      ∀ p ∈ mask, (p.2 = true ↔ ∃ m ∈ ["head"], modCovers demoArch p.1 m = true) :=
  (selector_total_and_validated demoArch ["head.weight", "lstm.weight"]
    ["head"]).1 (by decide)

/-- C6: the empty finetune-module list is accepted, yields the all-frozen
mask, and any number of training epochs under that mask leaves every
parameter value unchanged. -/
theorem empty_modules_noop_training (arch : Architecture)
    (paramKeys : List String) :
    selectTrainable arch paramKeys [] =
      .ok (paramKeys.map (fun k => (k, false))) ∧
    ∀ (update : String → Tensor → Tensor) (n : Nat) (m : ParamSnapshot),
      trainEpochs update (paramKeys.map (fun k => (k, false))) n m = m := by
  have hmask : ∀ p ∈ paramKeys.map (fun k => (k, false)), p.2 = false := by
    intro p hp
    obtain ⟨k, _, hpk⟩ := List.mem_map.mp hp
    rw [← hpk]
  refine ⟨rfl, ?_⟩
  intro update n
  induction n with
  | zero => intro m; rfl
  | succ n ih =>
    intro m
    rw [trainEpochs, trainEpoch_frozen hmask, ih]

theorem latest_cons_ok (c : Checkpoint) (cs : List Checkpoint) :
    ∃ b, latest (c :: cs) = .ok b := by
  cases h : latest cs with
  | error e =>
    refine ⟨c, ?_⟩
    simp only [latest]
    rw [h]
  | ok b =>
    refine ⟨if b.epoch ≤ c.epoch then c else b, ?_⟩
    simp only [latest]
    rw [h]

theorem latest_ok_spec : ∀ (cks : List Checkpoint) (c : Checkpoint),
    latest cks = .ok c → c ∈ cks ∧ ∀ d ∈ cks, d.epoch ≤ c.epoch := by
  intro cks
  induction cks with
  | nil => intro c h; exact Except.noConfusion h
  | cons a cs ih =>
    intro c h
    simp only [latest] at h
    cases hl : latest cs with
    | error e =>
      rw [hl] at h
      dsimp only at h
      have hc := Except.ok.inj h
      subst hc
      have hnil : cs = [] := by
        cases cs with
        | nil => rfl
        | cons x xs =>
          obtain ⟨b, hb⟩ := latest_cons_ok x xs
          rw [hb] at hl
          exact Except.noConfusion hl
      subst hnil
      refine ⟨List.mem_cons_self _ _, ?_⟩
      intro d hd
      rcases List.mem_cons.mp hd with hd | hd
      · rw [hd]
      · simp at hd
    | ok b =>
      rw [hl] at h
      dsimp only at h
      have hc := Except.ok.inj h
      obtain ⟨hbmem, hbmax⟩ := ih b hl
      by_cases hba : b.epoch ≤ a.epoch
      · rw [if_pos hba] at hc
        subst hc
        refine ⟨List.mem_cons_self _ _, ?_⟩
        intro d hd
        rcases List.mem_cons.mp hd with hd | hd
        · rw [hd]
        · exact le_trans (hbmax d hd) hba
      · rw [if_neg hba] at hc
        subst hc
        refine ⟨List.mem_cons_of_mem _ hbmem, ?_⟩
        intro d hd
        rcases List.mem_cons.mp hd with hd | hd
        · rw [hd]
          exact le_of_not_le hba
        · exact hbmax d hd

/-- Modelled from the spec: checkpoint selection of the `evaluate` entry
point; with no explicit epoch the run's latest checkpoint is used, with an
explicit epoch that epoch's checkpoint. -/
def evalCheckpoint (cks : List Checkpoint) (eopt : Option Nat) :
    Except Err Checkpoint :=
  match eopt with
  | none => latest cks
  | some e =>
    match cks.find? (fun c => c.epoch == e) with
    | some c => .ok c
    | none => .error .NoCheckpointFoundError

/-- C7: `latest` returns a checkpoint of the store with the highest epoch
index and fails with `NoCheckpointFoundError` exactly when the run owns no
checkpoint; evaluation with no explicit epoch uses this latest checkpoint. -/
theorem latest_checkpoint_spec (cks : List Checkpoint) :
    (cks = [] → latest cks = .error .NoCheckpointFoundError) ∧
    (cks ≠ [] → ∃ c, latest cks = .ok c ∧ c ∈ cks ∧
      ∀ d ∈ cks, d.epoch ≤ c.epoch) ∧
    evalCheckpoint cks none = latest cks := by
  refine ⟨?_, ?_, rfl⟩
  · intro h
    subst h
    rfl
  · intro h
    cases cks with
    | nil => exact absurd rfl h
    | cons a cs =>
      obtain ⟨b, hb⟩ := latest_cons_ok a cs
      obtain ⟨hmem, hmax⟩ := latest_ok_spec _ _ hb
      exact ⟨b, hb, hmem, hmax⟩

/-- Concrete two-checkpoint store for the C7 witness. -/
def demoCkpts : List Checkpoint := [⟨1, []⟩, ⟨3, []⟩]

/-- C7 witness: on a store with epochs 1 and 3, `latest` returns a checkpoint
bounding every epoch in the store. -/
theorem latest_checkpoint_spec_witness :
    ∃ c, latest demoCkpts = .ok c ∧ c ∈ demoCkpts ∧
      ∀ d ∈ demoCkpts, d.epoch ≤ c.epoch :=
  (latest_checkpoint_spec demoCkpts).2.1 (by decide)

/-- Per-basin result table produced by the external metric engine. -/
abbrev ResultTable := List (String × Int)

/-- Artifacts a run owns under its storage location: its resolved
configuration, its checkpoints and its result tables keyed by
(epoch, period). -/
structure RunArtifacts where
  config : ConfigRecord
  checkpoints : List Checkpoint
  results : List ((Nat × String) × ResultTable)
  deriving DecidableEq

/-- Persistent storage: run artifacts keyed by run location. -/
abbrev World := List (String × RunArtifacts)

/-- Modelled from the spec: the `evaluate` entry point of the Run
Orchestrator (the Python implementation is not among the checked sources).
It loads the run's latest checkpoint, runs the external metric engine
(`compute`, a deterministic function of checkpoint and period) and persists
the result table keyed by (run location, epoch, period), overwriting only
that result file. -/
def evalRun (compute : Checkpoint → String → ResultTable) (w : World)
    (runLoc period : String) : Except Err World :=
  match alookup w runLoc with
  | none => .error .NoCheckpointFoundError
  | some arts =>
    match latest arts.checkpoints with
    | .error e => .error e
    | .ok ck =>
      .ok (aset w runLoc
        { config := arts.config,
          checkpoints := arts.checkpoints,
          results := aset arts.results (ck.epoch, period) (compute ck period) })

/-- C8: a successful `evaluate` writes exactly one result table, keyed by the
run's latest epoch and the period; invoking it a second time on the same
(run, epoch, period) returns the very same world (identical result tables),
and artifacts of other run locations and other result keys are untouched. -/
theorem evalRun_idempotent (compute : Checkpoint → String → ResultTable)
    (w : World) (runLoc period : String) (w' : World)
    (h : evalRun compute w runLoc period = .ok w') :
    ∃ arts ck, alookup w runLoc = some arts ∧
      latest arts.checkpoints = .ok ck ∧
      w' = aset w runLoc
        { config := arts.config,
          checkpoints := arts.checkpoints,
          results := aset arts.results (ck.epoch, period) (compute ck period) } ∧
      evalRun compute w' runLoc period = .ok w' ∧
      (∀ loc, loc ≠ runLoc → alookup w' loc = alookup w loc) ∧
      (∀ key, key ≠ (ck.epoch, period) →
        alookup (aset arts.results (ck.epoch, period) (compute ck period)) key =
          alookup arts.results key) := by
  unfold evalRun at h
  cases ha : alookup w runLoc with
  | none => rw [ha] at h; exact Except.noConfusion h
  | some arts =>
    rw [ha] at h
    dsimp only at h
    cases hck : latest arts.checkpoints with
    | error e => rw [hck] at h; exact Except.noConfusion h
    | ok ck =>
      rw [hck] at h
      dsimp only at h
      have hw' := (Except.ok.inj h).symm
      refine ⟨arts, ck, rfl, hck, hw', ?_, ?_, ?_⟩
      · unfold evalRun
        rw [hw', alookup_aset_self]
        dsimp only
        rw [hck]
        dsimp only
        rw [aset_of_alookup_eq (alookup_aset_self _ _ _),
            aset_of_alookup_eq (alookup_aset_self _ _ _)]
      · intro loc hloc
        rw [hw', alookup_aset_ne _ _ hloc]
      · intro key hkey
        rw [alookup_aset_ne _ _ hkey]

/-- Concrete world for the C8 witness: one completed base run owning a single
epoch-2 checkpoint and no results yet. -/
def demoWorld : World :=
  [("runs/base_run",
    { config := exampleBase, checkpoints := [⟨2, []⟩], results := [] })]

/-- Deterministic stand-in for the external metric engine used by the
witnesses. -/
def demoCompute (ck : Checkpoint) (period : String) : ResultTable :=
  [("basin_01", Int.ofNat (ck.epoch + period.length))]

/-- The world after evaluating the demo base run on the test period. -/
def demoWorldEvaluated : World :=
  [("runs/base_run",
    { config := exampleBase, checkpoints := [⟨2, []⟩],
      results := [((2, "test"), demoCompute ⟨2, []⟩ "test")] })]

/-- C8 witness: evaluating the demo world's base run on the test period
succeeds and repeating it reproduces the same world. -/
theorem evalRun_idempotent_witness :
    ∃ arts ck, alookup demoWorld "runs/base_run" = some arts ∧
      latest arts.checkpoints = .ok ck ∧
      demoWorldEvaluated = aset demoWorld "runs/base_run"
        { config := arts.config,
          checkpoints := arts.checkpoints,
          results := aset arts.results (ck.epoch, "test")
            (demoCompute ck "test") } ∧
      evalRun demoCompute demoWorldEvaluated "runs/base_run" "test" =
        .ok demoWorldEvaluated ∧
      (∀ loc, loc ≠ "runs/base_run" →
        alookup demoWorldEvaluated loc = alookup demoWorld loc) ∧
      (∀ key, key ≠ (ck.epoch, "test") →
        alookup (aset arts.results (ck.epoch, "test") (demoCompute ck "test")) key =
          alookup arts.results key) :=
  evalRun_idempotent demoCompute demoWorld "runs/base_run" "test"
    demoWorldEvaluated rfl

/-- Finetune-module list stored in a resolved configuration. -/
def getModulesValue (cfg : ConfigRecord) : List String :=
  match alookup cfg "finetune_modules" with
  | some (Value.strList ms) => ms
  | _ => []

/-- Modelled from the spec: the `finetune` entry point of the Run
Orchestrator (the Python implementation is not among the checked sources).
It resolves the override against the base run's persisted configuration,
initializes the model from the base run's latest checkpoint, delegates to the
external training loop (`train`) under the trainability mask, and writes the
resolved configuration and the newly produced checkpoints under the fresh run
location allocated by the caller; the base run is only read. -/
def finetuneRun
    (train : ParamSnapshot → List (String × Bool) → ConfigRecord → List Checkpoint)
    (arch : Architecture) (w : World) (ov : ConfigRecord) (newLoc : String) :
    Except Err World :=
  match alookup ov "base_run_dir" with
  | some (Value.str baseLoc) =>
    match alookup w baseLoc with
    | none => .error .NoCheckpointFoundError
    | some baseArts =>
      match resolve baseArts.config ov with
      | .error e => .error e
      | .ok cfg =>
        match initModel arch baseArts.checkpoints (getModulesValue cfg) with
        | .error e => .error e
        | .ok (m, mask) =>
          .ok (aset w newLoc
            { config := cfg, checkpoints := train m mask cfg, results := [] })
  | _ => .error (.MissingRequiredFieldError "base_run_dir")

/-- C9: a successful finetune invocation on a fresh run location leaves the
base run's artifacts (configuration, checkpoint set, results) unchanged and
every other existing location untouched; all of its writes land under its own
distinct run location. -/
theorem finetune_preserves_base
    (train : ParamSnapshot → List (String × Bool) → ConfigRecord → List Checkpoint)
    (arch : Architecture) (w : World) (ov : ConfigRecord) (newLoc : String)
    (w' : World) (hfresh : alookup w newLoc = none)
    (h : finetuneRun train arch w ov newLoc = .ok w') :
    ∃ baseLoc baseArts,
      alookup ov "base_run_dir" = some (Value.str baseLoc) ∧
      alookup w baseLoc = some baseArts ∧
      baseLoc ≠ newLoc ∧
      alookup w' baseLoc = some baseArts ∧
      (∀ loc, loc ≠ newLoc → alookup w' loc = alookup w loc) ∧
      (∃ newArts, alookup w' newLoc = some newArts) := by
  unfold finetuneRun at h
  cases hb : alookup ov "base_run_dir" with
  | none => rw [hb] at h; exact Except.noConfusion h
  | some v =>
    rw [hb] at h
    cases v with
    | str baseLoc =>
      dsimp only at h
      cases ha : alookup w baseLoc with
      | none => rw [ha] at h; exact Except.noConfusion h
      | some baseArts =>
        rw [ha] at h
        dsimp only at h
        cases hr : resolve baseArts.config ov with
        | error e => rw [hr] at h; exact Except.noConfusion h
        | ok cfg =>
          rw [hr] at h
          dsimp only at h
          cases hi : initModel arch baseArts.checkpoints (getModulesValue cfg) with
          | error e => rw [hi] at h; exact Except.noConfusion h
          | ok p =>
            rw [hi] at h
            dsimp only at h
            have hw' := (Except.ok.inj h).symm
            have hne : baseLoc ≠ newLoc := by
              intro e
              rw [e, hfresh] at ha
              exact Option.noConfusion ha
            refine ⟨baseLoc, baseArts, rfl, ha, hne, ?_, ?_, ?_⟩
            · rw [hw', alookup_aset_ne _ _ hne, ha]
            · intro loc hloc
              rw [hw', alookup_aset_ne _ _ hloc]
            · rw [hw', alookup_aset_self]
              exact ⟨_, rfl⟩
    | nat n => exact Except.noConfusion h
    | bool b => exact Except.noConfusion h
    | strList xs => exact Except.noConfusion h

/-- External training loop stand-in for the C9 witness: one new checkpoint
holding the (possibly updated) parameters. -/
def demoTrain (m : ParamSnapshot) (_mask : List (String × Bool))
    (_cfg : ConfigRecord) : List Checkpoint :=
  [⟨1, m⟩]

/-- Base run of the C9 witness world: demo architecture weights at epoch 3. -/
def demoBaseArts : RunArtifacts :=
  { config := exampleBase, checkpoints := [demoCkpt], results := [] }

/-- World holding only the demo base run. -/
def demoFtWorld : World := [("runs/base_run", demoBaseArts)]

/-- C9 witness: finetuning the demo base run into a fresh location succeeds
and leaves the base run's artifacts unchanged. -/
theorem finetune_preserves_base_witness :
    ∃ baseLoc baseArts,
      alookup exampleOverride "base_run_dir" = some (Value.str baseLoc) ∧
      alookup demoFtWorld baseLoc = some baseArts ∧
      baseLoc ≠ "runs/finetune_run" ∧
      alookup (aset demoFtWorld "runs/finetune_run"
        { config :=
            aset (aset (applyOverride exampleBase exampleOverride)
              "is_finetuning" (Value.bool true)) "base_run_dir"
              (Value.str "runs/base_run"),
          checkpoints :=
            [⟨1, [("head.weight", [1, 2]), ("lstm.weight", [4, 5, 6])]⟩],
          results := [] }) baseLoc = some baseArts ∧
      (∀ loc, loc ≠ "runs/finetune_run" →
        alookup (aset demoFtWorld "runs/finetune_run"
          { config :=
              aset (aset (applyOverride exampleBase exampleOverride)
                "is_finetuning" (Value.bool true)) "base_run_dir"
                (Value.str "runs/base_run"),
            checkpoints :=
              [⟨1, [("head.weight", [1, 2]), ("lstm.weight", [4, 5, 6])]⟩],
            results := [] }) loc = alookup demoFtWorld loc) ∧
      (∃ newArts, alookup (aset demoFtWorld "runs/finetune_run"
        { config :=
            aset (aset (applyOverride exampleBase exampleOverride)
              "is_finetuning" (Value.bool true)) "base_run_dir"
              (Value.str "runs/base_run"),
          checkpoints :=
            [⟨1, [("head.weight", [1, 2]), ("lstm.weight", [4, 5, 6])]⟩],
          results := [] }) "runs/finetune_run" = some newArts) :=
  finetune_preserves_base demoTrain demoArch demoFtWorld exampleOverride
    "runs/finetune_run" _ rfl rfl

/-- Modelled from the spec and the notebook's run logs: configuration
resolution followed by recomputation of the derived quantity
`number_of_basins` from the training basin file selected by the resolved
record; all other inherited fields (such as `validate_n_random_basins`) are
taken verbatim from the base record without reconciliation. -/
def resolveWithDerived (files : List (String × List String))
    (base ov : ConfigRecord) : Except Err ConfigRecord :=
  match resolve base ov with
  | .error e => .error e
  | .ok cfg =>
    match alookup cfg "train_basin_file" with
    | some (Value.str f) =>
      match alookup files f with
      | some bs => .ok (aset cfg "number_of_basins" (Value.nat bs.length))
      | none => .ok cfg
    | _ => .ok cfg

/-- Basin files of the tutorial: the 531-basin pretraining file and the
single-basin finetuning file. -/
def basinFiles : List (String × List String) :=
  [("531_basins.txt", (List.range 531).map (fun n => toString n)),
   ("finetune_basin.txt", ["02064000"])]

/-- Base run configuration, transcribed from the notebook's pretraining log
(epoch-stamped fields elided). -/
def baseConfig531 : ConfigRecord :=
  [("experiment_name", Value.str "cudalstm_maurer_531_basins"),
   ("train_basin_file", Value.str "531_basins.txt"),
   ("validation_basin_file", Value.str "531_basins.txt"),
   ("test_basin_file", Value.str "531_basins.txt"),
   ("validate_every", Value.nat 1),
   ("validate_n_random_basins", Value.nat 531),
   ("metrics", Value.strList ["NSE"]),
   ("model", Value.str "cudalstm"),
   ("head", Value.str "regression"),
   ("hidden_size", Value.nat 128),
   ("initial_forget_bias", Value.nat 3),
   ("output_dropout", Value.str "0.4"),
   ("output_activation", Value.str "linear"),
   ("optimizer", Value.str "Adam"),
   ("loss", Value.str "NSE"),
   ("learning_rate", Value.str "0: 0.001, 1: 0.0005"),
   ("batch_size", Value.nat 256),
   ("epochs", Value.nat 3),
   ("clip_gradient_norm", Value.nat 1),
   ("predict_last_n", Value.nat 1),
   ("seq_length", Value.nat 365),
   ("num_workers", Value.nat 8),
   ("log_interval", Value.nat 5),
   ("log_tensorboard", Value.bool true),
   ("save_weights_every", Value.nat 1),
   ("save_validation_results", Value.bool true),
   ("dataset", Value.str "camels_us"),
   ("forcings", Value.strList ["maurer_extended"]),
   ("dynamic_inputs", Value.strList
     ["prcp(mm/day)", "srad(W/m2)", "tmax(C)", "tmin(C)", "vp(Pa)"]),
   ("target_variables", Value.strList ["QObs(mm/d)"]),
   ("number_of_basins", Value.nat 531)]

/-- Finetune override, transcribed from `finetune.yml` plus the appended
`base_run_dir`. -/
def finetuneOverride531 : ConfigRecord :=
  [("experiment_name", Value.str "cudalstm_maurer_531_basins_finetuned"),
   ("train_basin_file", Value.str "finetune_basin.txt"),
   ("validation_basin_file", Value.str "finetune_basin.txt"),
   ("test_basin_file", Value.str "finetune_basin.txt"),
   ("learning_rate", Value.str "0: 5e-4, 2: 5e-5"),
   ("epochs", Value.nat 10),
   ("finetune_modules", Value.strList ["head", "lstm"]),
   ("base_run_dir", Value.str "runs/cudalstm_maurer_531_basins")]

/-- C10: resolution inherits `validate_n_random_basins` verbatim from the
base record (531) even though the finetune run selects a single basin, while
the derived field `number_of_basins` is recomputed from the new basin file
(1) rather than inherited (the base record holds 531). -/
theorem derived_fields_not_reconciled :
    (resolveWithDerived basinFiles baseConfig531 finetuneOverride531).toOption.map
        (fun cfg => (alookup cfg "validate_n_random_basins",
                     alookup cfg "number_of_basins")) =
      some (some (Value.nat 531), some (Value.nat 1)) ∧
    alookup baseConfig531 "number_of_basins" = some (Value.nat 531) ∧
    alookup baseConfig531 "validate_n_random_basins" = some (Value.nat 531) := by
  refine ⟨?_, rfl, rfl⟩
  rfl
